import Mathlib

/-!
# Verification of `GetShopListByRutenService`

A shallow embedding of `src/libs/ruten-apis/src/services/getShopListByRutenService.ts`.

The service aggregates marketplace shops for a shopping list in four stages:

* Stage A (`getProductRequestExtended`): resolve canonical card metadata per item
  via the data-access facade; the first unresolvable item throws, and
  `getShopList` catches that and returns an empty list.
* Stage B (loop in `getShopList`): per item, fetch candidate listings
  (`findProductList`, filtered by `filterProdDetail`) and merge them into the
  shop list (`addOrUpdateShop`); per-item failures are pushed on the error
  accumulator.
* Stage C (`findShopHasAnotherProduct`): probe each shop for the other
  requested products; failures are accumulated, shops are kept.
* Stage D (`getShipInfo` under a settle-all join): attach free-shipping
  thresholds, with a sentinel fallback (`setDefaultFreeShip`).

Remote endpoints and the data-access facade are modelled as an explicit
environment of pure functions (`Env`); the title-matching heuristics that live
in `../utils` (outside the embedded file) are opaque Boolean parameters
(`Heuristics`), as the design document treats them.  JavaScript objects used as
string-keyed maps are modelled as association lists in insertion order, where
setting an existing key overwrites in place (`objSet`).  Errors pushed on the
instance's `errorHandler` array are threaded explicitly; thrown/rejected
computations are `Except` values.
-/

deriving instance DecidableEq for Except

namespace Ruten

/-! ## JavaScript string primitives -/

/-- Substring containment on character lists: `listContainsSub pat s` is `true`
iff `pat` occurs contiguously in `s` (the semantics of a fixed-word regex test
such as `/(SEVEN|FAMI|HILIFE)/.test(way)` for each alternative). -/
def listContainsSub (pat : List Char) : List Char → Bool
  | [] => pat.isEmpty
  | c :: rest => pat.isPrefixOf (c :: rest) || listContainsSub pat rest

/-- `String.prototype.replace` with a string pattern: replace the first
occurrence of `pat` only (JavaScript semantics). -/
def listReplaceFirst : List Char → List Char → List Char → List Char
  | [], _, _ => []
  | c :: rest, pat, rep =>
    if pat.isPrefixOf (c :: rest) then rep ++ (c :: rest).drop pat.length
    else c :: listReplaceFirst rest pat rep

/-- `s.includes(pat)` / a single-word regex test on strings. -/
def strContains (s pat : String) : Bool := listContainsSub pat.data s.data

/-- `s.replace(pat, rep)` (first occurrence only, as in JavaScript). -/
def strReplaceFirst (s pat rep : String) : String :=
  String.mk (listReplaceFirst s.data pat.data rep.data)

/-- `s.split(sep)` for a single-character separator, on character lists. -/
def splitOnChar (sep : Char) : List Char → List (List Char)
  | [] => [[]]
  | c :: rest =>
    if c = sep then [] :: splitOnChar sep rest
    else
      match splitOnChar sep rest with
      | [] => [[c]]
      | g :: gs => (c :: g) :: gs

/-- `productName.split('+')`. -/
def splitPlus (s : String) : List String :=
  (splitOnChar '+' s.data).map String.mk

/-! ## JavaScript object-as-map primitives

A JS object with string keys is an association list in insertion order;
assigning to an existing key overwrites its value in place, assigning to a new
key appends it. -/

/-- `m[k] = v` on a JS object. -/
def objSet {α : Type} : List (String × α) → String → α → List (String × α)
  | [], k, v => [(k, v)]
  | (k', v') :: rest, k, v =>
    if k' = k then (k, v) :: rest else (k', v') :: objSet rest k v

/-- `Object.keys(m)`. -/
def objKeys {α : Type} (m : List (String × α)) : List String := m.map (·.1)

/-- `m[k]` (reading), as an `Option`. -/
def objGet? {α : Type} : List (String × α) → String → Option α
  | [], _ => none
  | (k', v) :: rest, k => if k' = k then some v else objGet? rest k

/-! ## Data model (`getShopListByRutenService.type.ts` / `bestPlanByRutenService.ts`) -/

/-- One requested item: `productName` encodes `cardId + "+" + rarityCode`. -/
structure ProductRequest where
  productName : String
  count : Int
deriving DecidableEq, Repr

/-- A card document from the data store (`CardsDataType` projection used by the
service: `rarity`, `name`, `number`). -/
structure CardsData where
  name : String
  number : String
  rarity : List String
deriving DecidableEq, Repr

/-- `ProductRequestExtended`: a request plus resolved canonical metadata. -/
structure ProductRequestExtended where
  productName : String
  count : Int
  rarities : List String
  card_id : String
  card_name : String
  card_number : String
deriving DecidableEq, Repr

/-- One raw listing record from the product-detail endpoint
(`RutenProductDetailListResponse.data[i]`, `level=simple`). -/
structure RawDetail where
  id : String
  name : String
  goods_price : Int
  num : Int
  user : String
  deliver_way : List (String × Int)
deriving DecidableEq, Repr

/-- `ProdDetail`: the projected listing produced by `filterProdDetail`. -/
structure ProdDetail where
  price : Int
  qtl : Int
  id : String
  shopId : String
  deliver_way : List (String × Int)
deriving DecidableEq, Repr

/-- A per-shop product entry `{ id, price, qtl }`. -/
structure ProductEntry where
  id : String
  price : Int
  qtl : Int
deriving DecidableEq, Repr

/-- `Shop`: the aggregation unit. -/
structure Shop where
  id : String
  products : List (String × ProductEntry)
  shipPrices : List (String × Int)
  freeShip : List (String × Int)
deriving DecidableEq, Repr

/-- A row of `RutenShipListResponse.Rows`; only the `Id` field is consumed. -/
structure Row where
  Id : String
deriving DecidableEq, Repr

/-- The final state of a run: the returned shop list plus the instance's
`errorHandler` accumulator. -/
structure RunResult where
  shops : List Shop
  errors : List String
deriving DecidableEq, Repr

/-- The external world: the data-access facade and the four marketplace
endpoints, as pure fallible functions.  `Except.error` models a rejected
promise / thrown exception at that call site. -/
structure Env where
  /-- `dataAccessService.find(CARDS, {id, rarity: regex}, …)`; the arguments are
  the split base id and the (possibly absent) rarity code. -/
  findCards : String → Option String → Except String (List CardsData)
  /-- `PROD_LIST` search: query string to listing-id rows. -/
  prodList : String → Except String (List Row)
  /-- `PROD_DETAIL_LIST`: comma-joined ids (or a single id) to detail records. -/
  prodDetailList : String → Except String (List RawDetail)
  /-- `SHOP_INFO`: shop name to canonical `user_id`. -/
  shopInfo : String → Except String String
  /-- `SHOP_PROD_LIST`: shop id and target product to rows. -/
  shopProdList : String → String → Except String (List Row)
  /-- `SHOP_SHIP_INFO`: shop id to `discount_conditions`, an object mapping a
  condition name to its `arrival_amount`. -/
  shipInfo : String → Except String (List (String × Int))

/-- The title heuristics imported from `../utils`; their implementation is
outside the embedded source file, so they are opaque parameters here. -/
structure Heuristics where
  containsAllKeywords : String → String → Bool
  isIllegalProductChar : String → Bool
  isFanMode : String → Bool
  isUnopenedPackProduct : String → Bool
  notContainsAnotherRarity : String → String → Nat → Bool

/-! ## Shipping-price extraction (`extractShipPrices`) -/

/-- The test `/(SEVEN|FAMI|HILIFE)/.test(way)`. -/
def carrierMatch (way : String) : Bool :=
  strContains way "SEVEN" || strContains way "FAMI" || strContains way "HILIFE"

/-- `way.replace('_COD', '').replace('FAMI', 'FAMILY')`. -/
def normalizeCarrier (way : String) : String :=
  strReplaceFirst (strReplaceFirst way "_COD" "") "FAMI" "FAMILY"

/-- `extractShipPrices(deliverWay)`: keep the convenience-store carriers and
normalize their codes, writing into a fresh object in iteration order. -/
def extractShipPrices (deliverWay : List (String × Int)) : List (String × Int) :=
  deliverWay.foldl
    (fun acc p =>
      if carrierMatch p.1 then objSet acc (normalizeCarrier p.1) p.2 else acc)
    []

example : extractShipPrices
    [("SEVEN", 60), ("HILIFE_COD", 70), ("POST", 80), ("FAMI_COD", 65)] =
    [("SEVEN", 60), ("HILIFE", 70), ("FAMILY", 65)] := by decide

example : extractShipPrices [("SEVEN", 60), ("SEVEN_COD", 80)] =
    [("SEVEN", 80)] := by decide

/-! ## Listing filter (`filterProdDetail`) -/

/-- `productName.split('+')[0]` (always defined in JavaScript). -/
def baseIdOf (productName : String) : String :=
  (splitPlus productName).headD ""

/-- `productName.split('+')[1]` (may be `undefined`). -/
def nowRarityOf (productName : String) : Option String :=
  (splitPlus productName)[1]?

/-- `this.shoppingListExtended.find(x => x.productName === productName)`. -/
def findExt : List ProductRequestExtended → String → Option ProductRequestExtended
  | [], _ => none
  | e :: rest, pn => if e.productName = pn then some e else findExt rest pn

/-- The first four filter stages of `filterProdDetail`, in source order:
keyword containment, illegal-character exclusion, fan-made exclusion,
unopened-pack exclusion. -/
def baseFilter (H : Heuristics) (productName : String) (l : List RawDetail) :
    List RawDetail :=
  (((l.filter (fun x => H.containsAllKeywords x.name productName)).filter
        (fun x => H.isIllegalProductChar x.name)).filter
      (fun x => H.isFanMode x.name)).filter
    (fun x => H.isUnopenedPackProduct x.name)

/-- The rarity-disambiguation stage: for each known rarity other than the
requested one, keep only listings passing `notContainsAnotherRarity`. -/
def rarityStage (H : Heuristics) (rarities : List String) (nowRarity : String)
    (l : List RawDetail) : List RawDetail :=
  (rarities.filter (fun x => x ≠ nowRarity)).foldl
    (fun acc rar =>
      acc.filter (fun x => H.notContainsAnotherRarity x.name rar rarities.length))
    l

/-- The projection at the end of `filterProdDetail`. -/
def projDetail (x : RawDetail) : ProdDetail :=
  ⟨x.goods_price, x.num, x.id, x.user, x.deliver_way⟩

/-- `filterProdDetail(prodDetailListRes, productName)`: the full filter
pipeline.  The rarity stage only runs when an extended entry was found
(`rarities` defined), a rarity code was requested (`nowRarity` truthy, i.e. a
non-empty string), and the rarity array is non-empty. -/
def filterProdDetail (H : Heuristics) (ext : List ProductRequestExtended)
    (data : List RawDetail) (productName : String) : List ProdDetail :=
  let rarities := (findExt ext productName).map (·.rarities)
  let nowRarity := nowRarityOf productName
  let list1 := baseFilter H productName data
  let list2 :=
    match rarities, nowRarity with
    | some rs, some nr =>
      if nr ≠ "" ∧ 0 < rs.length then rarityStage H rs nr list1 else list1
    | some _, none => list1
    | none, _ => list1
  (list2.map projDetail).take 10

/-! ## Stage A (`getProductRequestExtended`) -/

/-- Resolution of one shopping-list item: split the product name, query the
card store, and take the first match; no match throws
`Card data not found …`. -/
def resolveOne (env : Env) (x : ProductRequest) : Except String ProductRequestExtended :=
  let card_id := baseIdOf x.productName
  let rarity := nowRarityOf x.productName
  match env.findCards card_id rarity with
  | .error e => .error e
  | .ok cards =>
    match cards.head? with
    | none =>
      .error ("Card data not found for " ++ card_id ++ " " ++ rarity.getD "undefined")
    | some c =>
      .ok ⟨x.productName, x.count, c.rarity, card_id, c.name, c.number⟩

/-- Sequential fallible map, short-circuiting at the first thrown error —
the shape of the `for … of shopListExtend.entries()` loop. -/
def mapExcept {α β : Type} (f : α → Except String β) : List α → Except String (List β)
  | [] => .ok []
  | a :: rest =>
    match f a with
    | .error e => .error e
    | .ok b =>
      match mapExcept f rest with
      | .error e => .error e
      | .ok bs => .ok (b :: bs)

/-- `getProductRequestExtended()`: resolve every item, throwing at the first
failure. -/
def getProductRequestExtended (env : Env) (slist : List ProductRequest) :
    Except String (List ProductRequestExtended) :=
  mapExcept (resolveOne env) slist

/-! ## Stage B (`findProductList` and the merge loop in `getShopList`) -/

/-- `findProductList(prod)`: search listing ids, fetch their details in one
batch, filter; any remote failure is rethrown as
`Error while getting product list for …`. -/
def findProductList (H : Heuristics) (env : Env)
    (ext : List ProductRequestExtended) (prod : ProductRequestExtended) :
    Except String (List ProdDetail) :=
  match env.prodList prod.productName with
  | .error _ => .error ("Error while getting product list for " ++ prod.productName)
  | .ok rows =>
    let ids := rows.map (·.Id)
    if ids.isEmpty then .ok []
    else
      match env.prodDetailList (String.intercalate "," ids) with
      | .error _ => .error ("Error while getting product list for " ++ prod.productName)
      | .ok details => .ok (filterProdDetail H ext details prod.productName)

/-- `this.shopList.findIndex(x => x.id === prodDetail.shopId)`, as an
`Option Nat` (`none` is `-1`). -/
def findShopIdx : List Shop → String → Option Nat
  | [], _ => none
  | s :: rest, sid =>
    if s.id = sid then some 0 else (findShopIdx rest sid).map (· + 1)

/-- The default shop used to totalize list indexing at indices that are known
to be in range. -/
def dfltShop : Shop := ⟨"", [], [], []⟩

/-- `addOrUpdateShop(prod, prodDetail)`: either a fresh shop seeded from the
listing (index `none`, i.e. `-1`), or a clone of the existing shop with the
product entry added/overwritten. -/
def addOrUpdateShop (shopList : List Shop) (prod : ProductRequestExtended)
    (d : ProdDetail) : Option Nat × Shop :=
  match findShopIdx shopList d.shopId with
  | none =>
    (none,
      ⟨d.shopId, [(prod.productName, ⟨d.id, d.price, d.qtl⟩)],
        extractShipPrices d.deliver_way, []⟩)
  | some i =>
    let shop := shopList.getD i dfltShop
    (some i,
      { shop with products := objSet shop.products prod.productName ⟨d.id, d.price, d.qtl⟩ })

/-- The caller's use of `addOrUpdateShop` in `getShopList`: push when the index
is `-1`, otherwise replace at that index. -/
def stepDetail (prod : ProductRequestExtended) (shopList : List Shop)
    (d : ProdDetail) : List Shop :=
  match addOrUpdateShop shopList prod d with
  | (none, shop) => shopList ++ [shop]
  | (some i, shop) => shopList.set i shop

/-- One iteration of the Stage B loop: a failed discovery pushes the error and
leaves the shop list unchanged; a successful one merges every surviving
detail. -/
def stageBStep (H : Heuristics) (env : Env) (ext : List ProductRequestExtended)
    (acc : List Shop × List String) (prod : ProductRequestExtended) :
    List Shop × List String :=
  match findProductList H env ext prod with
  | .error e => (acc.1, acc.2 ++ [e])
  | .ok ds => (ds.foldl (stepDetail prod) acc.1, acc.2)

/-- The whole Stage B loop over the extended list, starting from the fresh
instance state. -/
def stageB (H : Heuristics) (env : Env) (ext : List ProductRequestExtended) :
    List Shop × List String :=
  ext.foldl (stageBStep H env ext) ([], [])

/-! ## Stage C (`findShopHasAnotherProduct` and its helpers) -/

/-- `getShopId(shopName)`: resolve the canonical `user_id`; any failure is
rethrown with a descriptive message. -/
def getShopId (env : Env) (shopName : String) : Except String String :=
  match env.shopInfo shopName with
  | .ok uid => .ok uid
  | .error _ => .error ("Error while getting product list for " ++ shopName)

/-- `getShopOtherProductInfo(shopId, targetProduct)`: search the shop's own
listings; an empty result or empty first id yields the empty sentinel entry,
otherwise the top hit's detail is fetched.  Any failure (including an empty
detail response, whose `data[0].id` access throws) is rethrown with a
descriptive message. -/
def getShopOtherProductInfo (env : Env) (shopId targetProduct : String) :
    Except String ProductEntry :=
  let msg := "Error while getting other product info for " ++ shopId ++ " " ++ targetProduct
  match env.shopProdList shopId targetProduct with
  | .error _ => .error msg
  | .ok rows =>
    match rows.head? with
    | none => .ok ⟨"", 0, 0⟩
    | some r =>
      if r.Id = "" then .ok ⟨"", 0, 0⟩
      else
        match env.prodDetailList r.Id with
        | .error _ => .error msg
        | .ok ds =>
          match ds.head? with
          | none => .error msg
          | some dd => .ok ⟨dd.id, dd.goods_price, dd.num⟩

/-- `this.shopList.find(x => x.id === name)`. -/
def findShop : List Shop → String → Option Shop
  | [], _ => none
  | s :: rest, name => if s.id = name then some s else findShop rest name

/-- In-place update of the element at an index (a no-op out of range, where the
corresponding JavaScript assignment would not be reached). -/
def listModify {α : Type} : List α → Nat → (α → α) → List α
  | [], _, _ => []
  | a :: rest, 0, f => f a :: rest
  | a :: rest, i + 1, f => a :: listModify rest i f

/-- The body of the inner `for (const prod of targetProduct)` loop: fetch the
missing product from the shop; on success with a non-empty id attach it, on
failure push the error and continue. -/
def crossSellProd (env : Env) (sid : String) (idx : Nat)
    (acc : List Shop × List String) (prodName : String) :
    List Shop × List String :=
  match getShopOtherProductInfo env sid prodName with
  | .error e => (acc.1, acc.2 ++ [e])
  | .ok pd =>
    if pd.id ≠ "" then
      (listModify acc.1 idx (fun s => { s with products := objSet s.products prodName pd }),
        acc.2)
    else acc

/-- The products the shop named `name` does not yet stock: the requested
product names filtered against the keys of that shop's current `products`
object (looked up on the unmutated Stage B list). -/
def targetProductsOf (slist : List ProductRequest) (origShops : List Shop)
    (name : String) : List String :=
  let shopHasProdList := objKeys (((findShop origShops name).map (·.products)).getD [])
  (slist.map (·.productName)).filter (fun p => !(shopHasProdList.contains p))

/-- One iteration of the Stage C loop for the shop at position `idx` named
`name`: resolve the seller id (failure: accumulate and `continue`), compute the
products the shop does not yet stock against the unmutated Stage B list
`origShops`, and try to attach each of them. -/
def crossSellOne (env : Env) (slist : List ProductRequest) (origShops : List Shop)
    (acc : List Shop × List String) (entry : Nat × String) :
    List Shop × List String :=
  match getShopId env entry.2 with
  | .error e => (acc.1, acc.2 ++ [e])
  | .ok sid =>
    (targetProductsOf slist origShops entry.2).foldl (crossSellProd env sid entry.1) acc

/-- `list.entries()` from an initial index: the pairs `(i, aᵢ)` in order. -/
def enumFromN {α : Type} : Nat → List α → List (Nat × α)
  | _, [] => []
  | n, a :: rest => (n, a) :: enumFromN (n + 1) rest

/-- `findShopHasAnotherProduct(shopIdList)`: iterate over the shops discovered
in Stage B (cloned up front, so `this.shopList` itself stays unmutated during
the loop) and backfill each with the other requested products. -/
def findShopHasAnotherProduct (env : Env) (slist : List ProductRequest)
    (shops : List Shop) (errs : List String) : List Shop × List String :=
  (enumFromN 0 (shops.map (·.id))).foldl (crossSellOne env slist shops) (shops, errs)

/-! ## Stage D (`getShipInfo`, `setDefaultFreeShip`, and the settle-all join) -/

/-- `setDefaultFreeShip(shopIdx)`: the sentinel fallback
`{ [Object.keys(this.shopList[shopIdx].shipPrices)[0]]: 99999 }`.  Out of
range, the JavaScript property access throws (`Except.error`); with an empty
`shipPrices` the computed key is the string `"undefined"`. -/
def setDefaultFreeShip (shops : List Shop) (idx : Nat) :
    Except String (List (String × Int)) :=
  match shops[idx]? with
  | none => .error "TypeError: cannot read shipPrices of undefined"
  | some shop => .ok [((objKeys shop.shipPrices).headD "undefined", 99999)]

/-- The test `/SEVEN|FAMILY|HILIFE/.test(freeShipType)` used on discount
condition names (canonical codes, no alias here). -/
def freeShipMatch (s : String) : Bool :=
  strContains s "SEVEN" || strContains s "FAMILY" || strContains s "HILIFE"

/-- The extraction loop of `getShipInfo`: keep the recognized convenience-store
conditions with their `arrival_amount`, keys unchanged. -/
def extractFreeShip (conds : List (String × Int)) : List (String × Int) :=
  conds.foldl (fun acc p => if freeShipMatch p.1 then objSet acc p.1 p.2 else acc) []

/-- The `try` block of `getShipInfo`: fetch and extract; when nothing was
recognized, fall back to the sentinel (whose own failure propagates out of the
`try`). -/
def getShipInfoTry (env : Env) (shops : List Shop) (shop : Shop) (idx : Nat) :
    Except String (List (String × Int)) :=
  match env.shipInfo shop.id with
  | .error e => .error e
  | .ok conds =>
    let freeShip := extractFreeShip conds
    if freeShip.isEmpty then setDefaultFreeShip shops idx else .ok freeShip

/-- `getShipInfo(shop, idx)`: the `try/catch`.  A caught failure pushes
`Error while getting ships info for …` and re-applies the fallback; the promise
rejects only if that second fallback itself throws (index out of range). -/
def getShipInfo (env : Env) (shops : List Shop) (shop : Shop) (idx : Nat)
    (errs : List String) : Except String (List (String × Int)) × List String :=
  match getShipInfoTry env shops shop idx with
  | .ok v => (.ok v, errs)
  | .error _ =>
    let errs' := errs ++ ["Error while getting ships info for " ++ shop.id]
    match setDefaultFreeShip shops idx with
    | .ok d => (.ok d, errs')
    | .error e => (.error e, errs')

/-- `Promise.allSettled(this.shopList.map((shop, idx) => this.getShipInfo(shop, idx)))`
under the deterministic single-threaded schedule: settle every shop (in map
order), collecting each outcome and threading the error accumulator. -/
def settleAllGo (env : Env) (allShops : List Shop) :
    List Shop → Nat → List String → List (Except String (List (String × Int))) × List String
  | [], _, errs => ([], errs)
  | s :: rest, i, errs =>
    let r := getShipInfo env allShops s i errs
    let rs := settleAllGo env allShops rest (i + 1) r.2
    (r.1 :: rs.1, rs.2)

/-- The settle-all join over the whole shop list. -/
def settleAll (env : Env) (shops : List Shop) (errs : List String) :
    List (Except String (List (String × Int))) × List String :=
  settleAllGo env shops shops 0 errs

/-- The `shopResults.forEach((result, idx) => …)` loop: a fulfilled outcome
writes its value into `freeShip` at `idx`; a rejected outcome re-applies the
fallback and pushes the rejection reason.  (In the rejected branch a failing
fallback would throw in JavaScript; that sub-case is unreachable — see the
Stage D safety theorem — and is modelled as writing an empty map.) -/
def applySettled (env : Env) : List (Except String (List (String × Int))) → Nat →
    List Shop × List String → List Shop × List String
  | [], _, st => st
  | r :: rest, idx, (shops, errs) =>
    match r with
    | .ok v =>
      applySettled env rest (idx + 1)
        (listModify shops idx (fun s => { s with freeShip := v }), errs)
    | .error reason =>
      let d := match setDefaultFreeShip shops idx with
        | .ok d => d
        | .error _ => []
      applySettled env rest (idx + 1)
        (listModify shops idx (fun s => { s with freeShip := d }), errs ++ [reason])

/-- Stage D as a whole: settle every shop, then apply the outcomes. -/
def stageD (env : Env) (shops : List Shop) (errs : List String) : RunResult :=
  let settled := settleAll env shops errs
  let final := applySettled env settled.1 0 (shops, settled.2)
  ⟨final.1, final.2⟩

/-! ## The run (`constructor` + `getShopList`) -/

/-- The constructor's purchase-limit clamp:
`shoppingList.map(x => ({ ...x, count: Math.min(x.count, 3) }))`. -/
def clampShoppingList (slist : List ProductRequest) : List ProductRequest :=
  slist.map (fun x => { x with count := min x.count 3 })

/-- `getShopList()`: Stage A with its catch (empty list on failure), then
Stages B, C and D, returning the shop list together with the accumulated
errors. -/
def getShopList (H : Heuristics) (env : Env) (slist0 : List ProductRequest) :
    RunResult :=
  let slist := clampShoppingList slist0
  match getProductRequestExtended env slist with
  | .error e => ⟨[], [e]⟩
  | .ok ext =>
    let st1 := stageB H env ext
    let st2 := findShopHasAnotherProduct env slist st1.1 st1.2
    stageD env st2.1 st2.2

/-! ## Concrete instances for witnesses and counterexamples -/

/-- Heuristics that accept every title: the filter stages become transparent,
which isolates the orchestration logic under test. -/
def allTrue : Heuristics :=
  ⟨fun _ _ => true, fun _ => true, fun _ => true, fun _ => true, fun _ _ _ => true⟩

/-- A card document with two rarities. -/
def cardX : CardsData := ⟨"CardX", "001", ["UR", "SR"]⟩

/-- A concrete world: card `111` resolves (rarities `UR`/`SR`), card `222` has
no matching document; the `111+UR` search finds one listing sold by `shopA`;
every other remote call fails. -/
def envW : Env where
  findCards id _ := if id = "111" then .ok [cardX] else .ok []
  prodList q := if q = "111+UR" then .ok [⟨"L1"⟩] else .error "network"
  prodDetailList ids :=
    if ids = "L1" then .ok [⟨"d1", "CardX 001 UR", 100, 2, "shopA", [("SEVEN", 60)]⟩]
    else .error "network"
  shopInfo _ := .error "network"
  shopProdList _ _ := .error "network"
  shipInfo _ := .error "network"

/-- The resolvable request (count over the purchase limit). -/
def reqA : ProductRequest := ⟨"111+UR", 5⟩

/-- The unresolvable request. -/
def reqB : ProductRequest := ⟨"222+SR", 1⟩

example : getShopList allTrue envW [reqA] =
    ⟨[⟨"shopA", [("111+UR", ⟨"d1", 100, 2⟩)], [("SEVEN", 60)], [("SEVEN", 99999)]⟩],
      ["Error while getting product list for shopA",
        "Error while getting ships info for shopA"]⟩ := by decide

example : getShopList allTrue envW [reqA, reqB] =
    ⟨[], ["Card data not found for 222 SR"]⟩ := by decide

/-! ## Toolbox: object maps -/

theorem objGet?_objSet_self {α : Type} (m : List (String × α)) (k : String) (v : α) :
    objGet? (objSet m k v) k = some v := by
  induction m with
  | nil => simp [objSet, objGet?]
  | cons p rest ih =>
    by_cases h : p.1 = k
    · simp [objSet, h, objGet?]
    · simp [objSet, h, objGet?, ih]

theorem objGet?_objSet_ne {α : Type} (m : List (String × α)) (k k' : String) (v : α)
    (h : k' ≠ k) : objGet? (objSet m k v) k' = objGet? m k' := by
  induction m with
  | nil =>
    simp only [objSet, objGet?]
    exact if_neg (fun h' => h h'.symm)
  | cons p rest ih =>
    by_cases hp : p.1 = k
    · subst hp
      simp only [objSet, if_pos rfl, objGet?]
      rw [if_neg (fun h' => h h'.symm), if_neg (fun h' => h h'.symm)]
    · simp only [objSet, if_neg hp, objGet?, ih]

theorem objKeys_objSet_mem {α : Type} (m : List (String × α)) (k : String) (v : α)
    (h : k ∈ objKeys m) : objKeys (objSet m k v) = objKeys m := by
  induction m with
  | nil => simp [objKeys] at h
  | cons p rest ih =>
    by_cases hp : p.1 = k
    · simp [objSet, hp, objKeys]
    · have h' : k ∈ objKeys rest := by
        simp only [objKeys, List.map_cons, List.mem_cons] at h
        rcases h with h1 | h1
        · exact absurd h1.symm hp
        · exact h1
      have h2 := ih h'
      simp only [objKeys] at h2
      simp [objSet, hp, objKeys, h2]

theorem objKeys_objSet_new {α : Type} (m : List (String × α)) (k : String) (v : α)
    (h : ¬ k ∈ objKeys m) : objKeys (objSet m k v) = objKeys m ++ [k] := by
  induction m with
  | nil => simp [objSet, objKeys]
  | cons p rest ih =>
    simp only [objKeys, List.map_cons, List.mem_cons] at h
    push_neg at h
    simp only [objSet]
    rw [if_neg (fun h' => h.1 h'.symm)]
    have h2 : ¬ k ∈ objKeys rest := h.2
    have h3 := ih h2
    simp only [objKeys] at h3
    simp [objKeys, h3]

/-! ## Toolbox: `listModify` -/

theorem listModify_getElem?_eq {α : Type} (l : List α) (i : Nat) (f : α → α) :
    (listModify l i f)[i]? = (l[i]?).map f := by
  induction l generalizing i with
  | nil => simp [listModify]
  | cons a rest ih =>
    cases i with
    | zero => simp [listModify]
    | succ i => simpa [listModify] using ih i

theorem listModify_getElem?_ne {α : Type} (l : List α) (i j : Nat) (f : α → α)
    (h : i ≠ j) : (listModify l i f)[j]? = l[j]? := by
  induction l generalizing i j with
  | nil => simp [listModify]
  | cons a rest ih =>
    cases i with
    | zero =>
      cases j with
      | zero => exact absurd rfl h
      | succ j => simp [listModify]
    | succ i =>
      cases j with
      | zero => simp [listModify]
      | succ j => simpa [listModify] using ih i j (fun h' => h (h' ▸ rfl))

theorem listModify_map_of {α β : Type} (l : List α) (i : Nat) (f : α → α)
    (g : α → β) (h : ∀ a, g (f a) = g a) : (listModify l i f).map g = l.map g := by
  induction l generalizing i with
  | nil => simp [listModify]
  | cons a rest ih =>
    cases i with
    | zero => simp [listModify, h]
    | succ i => simp [listModify, ih]

theorem listModify_length {α : Type} (l : List α) (i : Nat) (f : α → α) :
    (listModify l i f).length = l.length := by
  induction l generalizing i with
  | nil => simp [listModify]
  | cons a rest ih =>
    cases i with
    | zero => simp [listModify]
    | succ i => simp [listModify, ih]

/-! ## Toolbox: folds and enumeration -/

theorem foldl_inv {σ α : Type} (P : σ → Prop) (step : σ → α → σ) (l : List α)
    (h : ∀ s x, x ∈ l → P s → P (step s x)) :
    ∀ s, P s → P (l.foldl step s) := by
  induction l with
  | nil => intro s hs; simpa using hs
  | cons a rest ih =>
    intro s hs
    simp only [List.foldl_cons]
    exact ih (fun s x hx => h s x (List.mem_cons_of_mem _ hx))
      (step s a) (h s a (List.mem_cons_self _ _) hs)

theorem mem_enumFromN {α : Type} (l : List α) :
    ∀ (n : Nat) (x : Nat × α), x ∈ enumFromN n l →
      ∃ k, l[k]? = some x.2 ∧ x.1 = n + k := by
  induction l with
  | nil => intro n x hx; simp [enumFromN] at hx
  | cons a rest ih =>
    intro n x hx
    simp only [enumFromN, List.mem_cons] at hx
    rcases hx with rfl | hx
    · exact ⟨0, by simp⟩
    · rcases ih (n + 1) x hx with ⟨k, hk, hn⟩
      exact ⟨k + 1, by simpa using hk, by omega⟩

theorem enumFromN_mem_of_getElem? {α : Type} (l : List α) :
    ∀ (n k : Nat) (a : α), l[k]? = some a → (n + k, a) ∈ enumFromN n l := by
  induction l with
  | nil => intro n k a h; simp at h
  | cons b rest ih =>
    intro n k a h
    cases k with
    | zero =>
      simp only [List.getElem?_cons_zero, Option.some_inj] at h
      subst h
      simp [enumFromN]
    | succ k =>
      simp only [List.getElem?_cons_succ] at h
      have hmem := ih (n + 1) k a h
      have heq : n + (k + 1) = n + 1 + k := by omega
      rw [heq]
      simp only [enumFromN, List.mem_cons]
      exact Or.inr hmem

/-! ## Toolbox: shop lookup and the Stage B merge -/

theorem findShopIdx_none_iff (l : List Shop) (sid : String) :
    findShopIdx l sid = none ↔ ¬ sid ∈ l.map (·.id) := by
  induction l with
  | nil => simp [findShopIdx]
  | cons s rest ih =>
    by_cases h : s.id = sid
    · simp [findShopIdx, h]
    · simp only [findShopIdx, if_neg h, Option.map_eq_none', List.map_cons,
        List.mem_cons, ih]
      constructor
      · intro hn hc
        rcases hc with hc | hc
        · exact h hc.symm
        · exact hn hc
      · intro hn hc
        exact hn (Or.inr hc)

theorem getD_of_getElem? {α : Type} (l : List α) (i : Nat) (a d : α)
    (h : l[i]? = some a) : l.getD i d = a := by
  induction l generalizing i with
  | nil => simp at h
  | cons b rest ih =>
    cases i with
    | zero => simp at h; simp [List.getD, h]
    | succ i =>
      simp only [List.getElem?_cons_succ] at h
      simpa [List.getD] using ih i h

theorem findShopIdx_some (l : List Shop) (sid : String) :
    ∀ i, findShopIdx l sid = some i → (l[i]?).map (·.id) = some sid := by
  induction l with
  | nil => intro i h; simp [findShopIdx] at h
  | cons s rest ih =>
    intro i h
    by_cases hs : s.id = sid
    · simp only [findShopIdx, if_pos hs, Option.some_inj] at h
      subst h
      simpa using hs
    · simp only [findShopIdx, if_neg hs] at h
      rcases Option.map_eq_some'.mp h with ⟨j, hj, rfl⟩
      simpa using ih j hj

theorem map_set_id (l : List Shop) (i : Nat) (upd : Shop)
    (h : (l[i]?).map (·.id) = some upd.id) :
    (l.set i upd).map (·.id) = l.map (·.id) := by
  induction l generalizing i with
  | nil => simp
  | cons s rest ih =>
    cases i with
    | zero =>
      simp only [List.getElem?_cons_zero, Option.map_some'] at h
      simp [List.set, ← Option.some_inj.mp h]
    | succ i =>
      simp only [List.getElem?_cons_succ] at h
      simp [List.set, ih i h]

theorem stepDetail_ids (prod : ProductRequestExtended) (shops : List Shop)
    (d : ProdDetail) :
    (stepDetail prod shops d).map (·.id) =
      if d.shopId ∈ shops.map (·.id) then shops.map (·.id)
      else shops.map (·.id) ++ [d.shopId] := by
  unfold stepDetail addOrUpdateShop
  cases hfind : findShopIdx shops d.shopId with
  | none =>
    rw [findShopIdx_none_iff] at hfind
    rw [if_neg hfind]
    simp
  | some i =>
    have hid := findShopIdx_some shops d.shopId i hfind
    have hmem : d.shopId ∈ shops.map (·.id) := by
      rcases Option.map_eq_some'.mp hid with ⟨a, ha, hae⟩
      exact hae ▸ List.mem_map_of_mem _ (List.getElem?_mem ha)
    rw [if_pos hmem]
    apply map_set_id
    rcases Option.map_eq_some'.mp hid with ⟨a, ha, hae⟩
    simp [ha, hae]

theorem stepDetail_nodup (prod : ProductRequestExtended) (shops : List Shop)
    (d : ProdDetail) (h : (shops.map (·.id)).Nodup) :
    ((stepDetail prod shops d).map (·.id)).Nodup := by
  rw [stepDetail_ids]
  by_cases hm : d.shopId ∈ shops.map (·.id)
  · rw [if_pos hm]; exact h
  · rw [if_neg hm]
    simp [List.nodup_append, h, hm]

theorem stepDetail_ids_mono (prod : ProductRequestExtended) (shops : List Shop)
    (d : ProdDetail) (x : String) (h : x ∈ shops.map (·.id)) :
    x ∈ (stepDetail prod shops d).map (·.id) := by
  rw [stepDetail_ids]
  by_cases hm : d.shopId ∈ shops.map (·.id)
  · rw [if_pos hm]; exact h
  · rw [if_neg hm]
    exact List.mem_append_left _ h

theorem stepDetail_ids_self (prod : ProductRequestExtended) (shops : List Shop)
    (d : ProdDetail) : d.shopId ∈ (stepDetail prod shops d).map (·.id) := by
  rw [stepDetail_ids]
  by_cases hm : d.shopId ∈ shops.map (·.id)
  · rw [if_pos hm]; exact hm
  · rw [if_neg hm]
    exact List.mem_append_right _ (List.mem_singleton.mpr rfl)

theorem foldl_stepDetail_ids_mono (prod : ProductRequestExtended)
    (ds : List ProdDetail) (shops : List Shop) (x : String)
    (h : x ∈ shops.map (·.id)) :
    x ∈ (ds.foldl (stepDetail prod) shops).map (·.id) :=
  foldl_inv (fun s => x ∈ s.map (·.id)) (stepDetail prod) ds
    (fun s d _ hs => stepDetail_ids_mono prod s d x hs) shops h

theorem foldl_stepDetail_mem (prod : ProductRequestExtended)
    (ds : List ProdDetail) (shops : List Shop) (d : ProdDetail) (h : d ∈ ds) :
    d.shopId ∈ (ds.foldl (stepDetail prod) shops).map (·.id) := by
  induction ds generalizing shops with
  | nil => simp at h
  | cons d0 rest ih =>
    rcases List.mem_cons.mp h with rfl | hmem
    · exact foldl_stepDetail_ids_mono prod rest (stepDetail prod shops d) d.shopId
        (stepDetail_ids_self prod shops d)
    · exact ih _ hmem

theorem foldl_stepDetail_nodup (prod : ProductRequestExtended)
    (ds : List ProdDetail) (shops : List Shop)
    (h : (shops.map (·.id)).Nodup) :
    ((ds.foldl (stepDetail prod) shops).map (·.id)).Nodup :=
  foldl_inv (fun s => (s.map (·.id)).Nodup) (stepDetail prod) ds
    (fun s d _ hs => stepDetail_nodup prod s d hs) shops h

/-! ## Toolbox: the Stage B loop -/

theorem stageBStep_ids_mono (H : Heuristics) (env : Env)
    (ext : List ProductRequestExtended) (acc : List Shop × List String)
    (prod : ProductRequestExtended) (x : String) (h : x ∈ acc.1.map (·.id)) :
    x ∈ (stageBStep H env ext acc prod).1.map (·.id) := by
  unfold stageBStep
  cases findProductList H env ext prod with
  | error e => exact h
  | ok ds => exact foldl_stepDetail_ids_mono prod ds acc.1 x h

theorem stageBStep_errs_mono (H : Heuristics) (env : Env)
    (ext : List ProductRequestExtended) (acc : List Shop × List String)
    (prod : ProductRequestExtended) (e : String) (h : e ∈ acc.2) :
    e ∈ (stageBStep H env ext acc prod).2 := by
  unfold stageBStep
  cases findProductList H env ext prod with
  | error e' => exact List.mem_append_left _ h
  | ok ds => exact h

theorem stageBStep_nodup (H : Heuristics) (env : Env)
    (ext : List ProductRequestExtended) (acc : List Shop × List String)
    (prod : ProductRequestExtended) (h : (acc.1.map (·.id)).Nodup) :
    ((stageBStep H env ext acc prod).1.map (·.id)).Nodup := by
  unfold stageBStep
  cases findProductList H env ext prod with
  | error e => exact h
  | ok ds => exact foldl_stepDetail_nodup prod ds acc.1 h

theorem stageB_foldl_ids_mono (H : Heuristics) (env : Env)
    (ext l : List ProductRequestExtended) (acc : List Shop × List String)
    (x : String) (h : x ∈ acc.1.map (·.id)) :
    x ∈ (l.foldl (stageBStep H env ext) acc).1.map (·.id) :=
  foldl_inv (fun s => x ∈ s.1.map (·.id)) _ l
    (fun s p _ hs => stageBStep_ids_mono H env ext s p x hs) acc h

theorem stageB_foldl_errs_mono (H : Heuristics) (env : Env)
    (ext l : List ProductRequestExtended) (acc : List Shop × List String)
    (e : String) (h : e ∈ acc.2) :
    e ∈ (l.foldl (stageBStep H env ext) acc).2 :=
  foldl_inv (fun s => e ∈ s.2) _ l
    (fun s p _ hs => stageBStep_errs_mono H env ext s p e hs) acc h

theorem stageB_foldl_nodup (H : Heuristics) (env : Env)
    (ext l : List ProductRequestExtended) (acc : List Shop × List String)
    (h : (acc.1.map (·.id)).Nodup) :
    ((l.foldl (stageBStep H env ext) acc).1.map (·.id)).Nodup :=
  foldl_inv (fun s => (s.1.map (·.id)).Nodup) _ l
    (fun s p _ hs => stageBStep_nodup H env ext s p hs) acc h

theorem stageB_foldl_err_mem (H : Heuristics) (env : Env)
    (ext : List ProductRequestExtended) (prod : ProductRequestExtended)
    (e : String) (herr : findProductList H env ext prod = .error e) :
    ∀ (l : List ProductRequestExtended) (acc : List Shop × List String),
      prod ∈ l → e ∈ (l.foldl (stageBStep H env ext) acc).2 := by
  intro l
  induction l with
  | nil => intro acc h; simp at h
  | cons p rest ih =>
    intro acc h
    rcases List.mem_cons.mp h with rfl | hmem
    · simp only [List.foldl_cons]
      apply stageB_foldl_errs_mono
      unfold stageBStep
      rw [herr]
      exact List.mem_append_right _ (List.mem_singleton.mpr rfl)
    · simp only [List.foldl_cons]
      exact ih _ hmem

theorem stageB_foldl_shop_mem (H : Heuristics) (env : Env)
    (ext : List ProductRequestExtended) (prod : ProductRequestExtended)
    (ds : List ProdDetail) (d : ProdDetail)
    (hok : findProductList H env ext prod = .ok ds) (hd : d ∈ ds) :
    ∀ (l : List ProductRequestExtended) (acc : List Shop × List String),
      prod ∈ l → d.shopId ∈ (l.foldl (stageBStep H env ext) acc).1.map (·.id) := by
  intro l
  induction l with
  | nil => intro acc h; simp at h
  | cons p rest ih =>
    intro acc h
    rcases List.mem_cons.mp h with rfl | hmem
    · simp only [List.foldl_cons]
      apply stageB_foldl_ids_mono
      unfold stageBStep
      rw [hok]
      exact foldl_stepDetail_mem prod ds acc.1 d hd
    · simp only [List.foldl_cons]
      exact ih _ hmem

/-! ## Toolbox: the Stage C loop -/

theorem crossSellProd_ids (env : Env) (sid : String) (idx : Nat)
    (acc : List Shop × List String) (p : String) :
    (crossSellProd env sid idx acc p).1.map (·.id) = acc.1.map (·.id) := by
  rcases h' : getShopOtherProductInfo env sid p with e | pd
  · simp [crossSellProd, h']
  · by_cases h : pd.id ≠ ""
    · have hmod := listModify_map_of acc.1 idx
        (fun s => { s with products := objSet s.products p pd })
        (fun x => x.id) (fun a => rfl)
      simp [crossSellProd, h', h, hmod]
    · have he : pd.id = "" := not_ne_iff.mp h
      simp [crossSellProd, h', he]

theorem crossSellProd_errs_mono (env : Env) (sid : String) (idx : Nat)
    (acc : List Shop × List String) (p : String) (e : String) (h : e ∈ acc.2) :
    e ∈ (crossSellProd env sid idx acc p).2 := by
  rcases h' : getShopOtherProductInfo env sid p with e' | pd
  · simp only [crossSellProd, h']
    exact List.mem_append_left _ h
  · by_cases hc : pd.id ≠ ""
    · simpa [crossSellProd, h', hc] using h
    · have he : pd.id = "" := not_ne_iff.mp hc
      simpa [crossSellProd, h', he] using h

theorem crossSellOne_ids (env : Env) (slist : List ProductRequest)
    (origShops : List Shop) (acc : List Shop × List String) (entry : Nat × String) :
    (crossSellOne env slist origShops acc entry).1.map (·.id) = acc.1.map (·.id) := by
  unfold crossSellOne
  cases getShopId env entry.2 with
  | error e => rfl
  | ok sid =>
    exact foldl_inv (fun s => s.1.map (·.id) = acc.1.map (·.id)) _ _
      (fun s p _ hs => (crossSellProd_ids env sid entry.1 s p).trans hs) acc rfl

theorem crossSellOne_errs_mono (env : Env) (slist : List ProductRequest)
    (origShops : List Shop) (acc : List Shop × List String) (entry : Nat × String)
    (e : String) (h : e ∈ acc.2) :
    e ∈ (crossSellOne env slist origShops acc entry).2 := by
  unfold crossSellOne
  cases getShopId env entry.2 with
  | error e' => exact List.mem_append_left _ h
  | ok sid =>
    exact foldl_inv (fun s => e ∈ s.2) _ _
      (fun s p _ hs => crossSellProd_errs_mono env sid entry.1 s p e hs) acc h

theorem stageC_foldl_errs_mono (env : Env) (slist : List ProductRequest)
    (origShops : List Shop) (entries : List (Nat × String))
    (acc : List Shop × List String) (e : String) (h : e ∈ acc.2) :
    e ∈ (entries.foldl (crossSellOne env slist origShops) acc).2 :=
  foldl_inv (fun s => e ∈ s.2) _ entries
    (fun s x _ hs => crossSellOne_errs_mono env slist origShops s x e hs) acc h

theorem stageC_ids (env : Env) (slist : List ProductRequest) (shops : List Shop)
    (errs : List String) :
    (findShopHasAnotherProduct env slist shops errs).1.map (·.id) = shops.map (·.id) := by
  unfold findShopHasAnotherProduct
  exact foldl_inv (fun s => s.1.map (·.id) = shops.map (·.id)) _ _
    (fun s x _ hs => (crossSellOne_ids env slist shops s x).trans hs) (shops, errs) rfl

theorem stageC_errs_mono (env : Env) (slist : List ProductRequest) (shops : List Shop)
    (errs : List String) (e : String) (h : e ∈ errs) :
    e ∈ (findShopHasAnotherProduct env slist shops errs).2 :=
  stageC_foldl_errs_mono env slist shops _ (shops, errs) e h

theorem crossSellOne_err_self (env : Env) (slist : List ProductRequest)
    (origShops : List Shop) (acc : List Shop × List String) (entry : Nat × String)
    (e : String) (h : getShopId env entry.2 = .error e) :
    e ∈ (crossSellOne env slist origShops acc entry).2 := by
  unfold crossSellOne
  rw [h]
  exact List.mem_append_right _ (List.mem_singleton.mpr rfl)

theorem crossSellProd_err_self (env : Env) (sid : String) (idx : Nat)
    (acc : List Shop × List String) (p : String) (e : String)
    (h : getShopOtherProductInfo env sid p = .error e) :
    e ∈ (crossSellProd env sid idx acc p).2 := by
  unfold crossSellProd
  rw [h]
  exact List.mem_append_right _ (List.mem_singleton.mpr rfl)

theorem crossSellOne_prod_err (env : Env) (slist : List ProductRequest)
    (origShops : List Shop) (acc : List Shop × List String) (entry : Nat × String)
    (sid : String) (hid : getShopId env entry.2 = .ok sid)
    (p : String) (hp : p ∈ targetProductsOf slist origShops entry.2)
    (e : String) (he : getShopOtherProductInfo env sid p = .error e) :
    e ∈ (crossSellOne env slist origShops acc entry).2 := by
  unfold crossSellOne
  rw [hid]
  generalize hl : targetProductsOf slist origShops entry.2 = l at hp ⊢
  clear hl
  induction l generalizing acc with
  | nil => simp at hp
  | cons q rest ih =>
    rcases List.mem_cons.mp hp with rfl | hmem
    · simp only [List.foldl_cons]
      exact foldl_inv (fun s => e ∈ s.2) _ rest
        (fun s x _ hs => crossSellProd_errs_mono env sid entry.1 s x e hs) _
        (crossSellProd_err_self env sid entry.1 acc p e he)
    · simp only [List.foldl_cons]
      exact ih _ hmem

/-! ## Toolbox: Stage C keeps every shop and its existing products -/

/-- `keepsProducts shops cur`: `cur` has, position by position, the same shops
as `shops` (same id, same `shipPrices`) and each shop's original product
bindings are intact. -/
def keepsProducts (shops cur : List Shop) : Prop :=
  ∀ (i : Nat) (shop₀ : Shop), shops[i]? = some shop₀ →
    ∃ shop' : Shop, cur[i]? = some shop' ∧ shop'.id = shop₀.id ∧
      shop'.shipPrices = shop₀.shipPrices ∧
      ∀ k : String, k ∈ objKeys shop₀.products →
        objGet? shop'.products k = objGet? shop₀.products k

theorem keepsProducts_refl (shops : List Shop) : keepsProducts shops shops := by
  unfold keepsProducts
  intro i shop₀ h
  exact ⟨shop₀, h, rfl, rfl, fun _ _ => rfl⟩

theorem findShop_of_nodup (shops : List Shop) (h : (shops.map (·.id)).Nodup) :
    ∀ (i : Nat) (s : Shop), shops[i]? = some s → findShop shops s.id = some s := by
  induction shops with
  | nil => intro i s hs; simp at hs
  | cons a rest ih =>
    intro i s hs
    cases i with
    | zero =>
      simp only [List.getElem?_cons_zero, Option.some_inj] at hs
      subst hs
      simp [findShop]
    | succ i =>
      simp only [List.getElem?_cons_succ] at hs
      have hmem : s.id ∈ rest.map (·.id) :=
        List.mem_map_of_mem _ (List.getElem?_mem hs)
      simp only [List.map_cons, List.nodup_cons] at h
      have hne : a.id ≠ s.id := fun hEq => h.1 (hEq ▸ hmem)
      simp only [findShop, if_neg hne]
      exact ih h.2 i s hs

theorem targetProductsOf_not_mem (slist : List ProductRequest)
    (shops : List Shop) (name p : String)
    (hmem : p ∈ targetProductsOf slist shops name) :
    ¬ p ∈ objKeys (((findShop shops name).map (·.products)).getD []) := by
  unfold targetProductsOf at hmem
  rcases List.mem_filter.mp hmem with ⟨_, hcond⟩
  simp only [Bool.not_eq_true'] at hcond
  intro hk
  have hcontr :
      (objKeys ((Option.map (fun x => x.products) (findShop shops name)).getD [])).contains p
        = true :=
    List.elem_iff.mpr hk
  rw [hcontr] at hcond
  simp at hcond

theorem crossSellProd_keeps (env : Env) (sid : String) (idx : Nat) (p : String)
    (shops : List Shop) (acc : List Shop × List String)
    (hp : ∀ shop₀, shops[idx]? = some shop₀ → ¬ p ∈ objKeys shop₀.products)
    (hk : keepsProducts shops acc.1) :
    keepsProducts shops (crossSellProd env sid idx acc p).1 := by
  rcases h' : getShopOtherProductInfo env sid p with e | pd
  · simpa [crossSellProd, h'] using hk
  · by_cases h : pd.id ≠ ""
    · simp only [crossSellProd, h']
      rw [if_pos h]
      unfold keepsProducts
      intro i shop₀ hi
      rcases hk i shop₀ hi with ⟨shop', hcur, hid, hship, hprod⟩
      by_cases hidx : idx = i
      · subst hidx
        refine ⟨{ shop' with products := objSet shop'.products p pd }, ?_, hid, hship, ?_⟩
        · show (listModify acc.1 idx _)[idx]? = _
          rw [listModify_getElem?_eq, hcur]
          rfl
        · intro k hkmem
          have hne : k ≠ p := fun hEq => hp shop₀ hi (hEq ▸ hkmem)
          show objGet? (objSet shop'.products p pd) k = _
          rw [objGet?_objSet_ne _ _ _ _ hne]
          exact hprod k hkmem
      · refine ⟨shop', ?_, hid, hship, hprod⟩
        show (listModify acc.1 idx _)[i]? = _
        rw [listModify_getElem?_ne _ _ _ _ hidx]
        exact hcur
    · have he : pd.id = "" := not_ne_iff.mp h
      simpa [crossSellProd, h', he] using hk

theorem crossSellOne_keeps (env : Env) (slist : List ProductRequest)
    (shops : List Shop) (acc : List Shop × List String) (entry : Nat × String)
    (hnd : (shops.map (·.id)).Nodup)
    (hentry : entry ∈ enumFromN 0 (shops.map (·.id)))
    (hk : keepsProducts shops acc.1) :
    keepsProducts shops (crossSellOne env slist shops acc entry).1 := by
  rcases h' : getShopId env entry.2 with e | sid
  · simpa [crossSellOne, h'] using hk
  · simp only [crossSellOne, h']
    rcases mem_enumFromN _ _ _ hentry with ⟨k, hk2, hk1⟩
    rw [List.getElem?_map] at hk2
    rcases Option.map_eq_some'.mp hk2 with ⟨s₀, hs₀, hs₀id⟩
    have hk1' : entry.1 = k := by omega
    apply foldl_inv (fun s => keepsProducts shops s.1) _ _ _ acc hk
    intro s x hx hs
    apply crossSellProd_keeps env sid entry.1 x shops s _ hs
    intro shop₀ hidx
    rw [hk1'] at hidx
    rw [hs₀] at hidx
    have hEq : shop₀ = s₀ := (Option.some_inj.mp hidx).symm
    subst hEq
    have hfound := findShop_of_nodup shops hnd k shop₀ hs₀
    have hnm := targetProductsOf_not_mem slist shops entry.2 x hx
    have hfound2 : findShop shops entry.2 = some shop₀ := by
      rw [← hs₀id]; exact hfound
    rw [hfound2] at hnm
    simpa using hnm

theorem stageC_keeps (env : Env) (slist : List ProductRequest) (shops : List Shop)
    (errs : List String) (hnd : (shops.map (·.id)).Nodup) :
    keepsProducts shops (findShopHasAnotherProduct env slist shops errs).1 := by
  unfold findShopHasAnotherProduct
  exact foldl_inv (fun s => keepsProducts shops s.1) _ _
    (fun s x hx hs => crossSellOne_keeps env slist shops s x hnd hx hs)
    (shops, errs) (keepsProducts_refl shops)

theorem stageC_foldl_err_contrib (env : Env) (slist : List ProductRequest)
    (orig : List Shop) (e : String) (entry : Nat × String)
    (hcontrib : ∀ acc', e ∈ (crossSellOne env slist orig acc' entry).2) :
    ∀ (entries : List (Nat × String)) (acc : List Shop × List String),
      entry ∈ entries → e ∈ (entries.foldl (crossSellOne env slist orig) acc).2 := by
  intro entries
  induction entries with
  | nil => intro acc h; simp at h
  | cons x rest ih =>
    intro acc h
    rcases List.mem_cons.mp h with rfl | hmem
    · simp only [List.foldl_cons]
      exact stageC_foldl_errs_mono env slist orig rest _ e (hcontrib acc)
    · simp only [List.foldl_cons]
      exact ih _ hmem

/-! ## Toolbox: Stage D -/

theorem setDefaultFreeShip_at (shops : List Shop) (idx : Nat) (shop : Shop)
    (h : shops[idx]? = some shop) :
    setDefaultFreeShip shops idx =
      .ok [((objKeys shop.shipPrices).headD "undefined", 99999)] := by
  unfold setDefaultFreeShip
  rw [h]

theorem getShipInfo_fst_indep (env : Env) (A : List Shop) (s : Shop) (i : Nat)
    (e1 e2 : List String) :
    (getShipInfo env A s i e1).1 = (getShipInfo env A s i e2).1 := by
  rcases h : getShipInfoTry env A s i with e | v
  · rcases h2 : setDefaultFreeShip A i with e' | d <;> simp [getShipInfo, h, h2]
  · simp [getShipInfo, h]

theorem getShipInfo_errs (env : Env) (A : List Shop) (s : Shop) (i : Nat)
    (errs : List String) :
    ∃ t, (getShipInfo env A s i errs).2 = errs ++ t := by
  rcases h : getShipInfoTry env A s i with e | v
  · rcases h2 : setDefaultFreeShip A i with e' | d <;>
      exact ⟨["Error while getting ships info for " ++ s.id],
        by simp [getShipInfo, h, h2]⟩
  · exact ⟨[], by simp [getShipInfo, h]⟩

theorem getShipInfo_fst_ok (env : Env) (A : List Shop) (s : Shop) (i : Nat)
    (errs : List String) (h : i < A.length) :
    ∃ v, (getShipInfo env A s i errs).1 = .ok v := by
  have ha : A[i]? = some A[i] := List.getElem?_eq_getElem h
  have hd := setDefaultFreeShip_at A i A[i] ha
  rcases h' : getShipInfoTry env A s i with e | v
  · exact ⟨[((objKeys A[i].shipPrices).headD "undefined", 99999)],
      by simp [getShipInfo, h', hd]⟩
  · exact ⟨v, by simp [getShipInfo, h']⟩

theorem settleAllGo_fst_getElem (env : Env) (A : List Shop) :
    ∀ (l : List Shop) (i : Nat) (errs : List String) (k : Nat),
      (settleAllGo env A l i errs).1[k]? =
        (l[k]?).map (fun s => (getShipInfo env A s (i + k) []).1) := by
  intro l
  induction l with
  | nil => intro i errs k; simp [settleAllGo]
  | cons s rest ih =>
    intro i errs k
    cases k with
    | zero =>
      simp only [settleAllGo, List.getElem?_cons_zero, Nat.add_zero, Option.map_some']
      rw [getShipInfo_fst_indep env A s i _ []]
    | succ k =>
      simp only [settleAllGo, List.getElem?_cons_succ]
      rw [ih (i + 1) _ k]
      have : i + (k + 1) = i + 1 + k := by omega
      rw [this]

theorem settleAllGo_errs_mono (env : Env) (A : List Shop) :
    ∀ (l : List Shop) (i : Nat) (errs : List String) (e : String),
      e ∈ errs → e ∈ (settleAllGo env A l i errs).2 := by
  intro l
  induction l with
  | nil => intro i errs e h; simpa [settleAllGo] using h
  | cons s rest ih =>
    intro i errs e h
    simp only [settleAllGo]
    apply ih
    rcases getShipInfo_errs env A s i errs with ⟨t, ht⟩
    rw [ht]
    exact List.mem_append_left _ h

theorem settleAllGo_all_ok (env : Env) (A : List Shop) :
    ∀ (l : List Shop) (i : Nat) (errs : List String),
      i + l.length ≤ A.length →
      ∀ r ∈ (settleAllGo env A l i errs).1, ∃ v, r = .ok v := by
  intro l
  induction l with
  | nil => intro i errs hle r hr; simp [settleAllGo] at hr
  | cons s rest ih =>
    intro i errs hle r hr
    simp only [settleAllGo, List.mem_cons] at hr
    rcases hr with rfl | hr
    · have hi : i < A.length := by simp at hle; omega
      rcases getShipInfo_fst_ok env A s i errs hi with ⟨v, hv⟩
      exact ⟨v, hv⟩
    · exact ih (i + 1) _ (by simp at hle; omega) r hr

theorem applySettled_errs_mono (env : Env) :
    ∀ (rs : List (Except String (List (String × Int)))) (i : Nat)
      (st : List Shop × List String) (e : String),
      e ∈ st.2 → e ∈ (applySettled env rs i st).2 := by
  intro rs
  induction rs with
  | nil => intro i st e h; exact h
  | cons r rest ih =>
    intro i st e h
    rcases st with ⟨shops, errs⟩
    rcases r with reason | v
    · exact ih (i + 1) _ e (List.mem_append_left _ h)
    · exact ih (i + 1) _ e h

theorem applySettled_ids (env : Env) :
    ∀ (rs : List (Except String (List (String × Int)))) (i : Nat)
      (st : List Shop × List String),
      (applySettled env rs i st).1.map (·.id) = st.1.map (·.id) := by
  intro rs
  induction rs with
  | nil => intro i st; rfl
  | cons r rest ih =>
    intro i st
    rcases st with ⟨shops, errs⟩
    rcases r with reason | v <;>
      exact (ih (i + 1) _).trans (listModify_map_of shops i _ _ (fun a => rfl))

theorem applySettled_getElem_lt (env : Env) :
    ∀ (rs : List (Except String (List (String × Int)))) (i j : Nat)
      (shops : List Shop) (errs : List String), j < i →
      (applySettled env rs i (shops, errs)).1[j]? = shops[j]? := by
  intro rs
  induction rs with
  | nil => intro i j shops errs h; rfl
  | cons r rest ih =>
    intro i j shops errs h
    have hne : i ≠ j := by omega
    rcases r with reason | v
    · rw [show applySettled env (.error reason :: rest) i (shops, errs) =
          applySettled env rest (i + 1)
            (listModify shops i
              (fun s => { s with freeShip :=
                match setDefaultFreeShip shops i with
                | .ok d => d
                | .error _ => [] }), errs ++ [reason]) from rfl]
      rw [ih (i + 1) j _ _ (by omega)]
      exact listModify_getElem?_ne shops i j _ hne
    · rw [show applySettled env (.ok v :: rest) i (shops, errs) =
          applySettled env rest (i + 1)
            (listModify shops i (fun s => { s with freeShip := v }), errs) from rfl]
      rw [ih (i + 1) j _ _ (by omega)]
      exact listModify_getElem?_ne shops i j _ hne

theorem applySettled_ok_at (env : Env) :
    ∀ (rs : List (Except String (List (String × Int)))) (k i : Nat)
      (shops : List Shop) (errs : List String) (v : List (String × Int)),
      rs[k]? = some (.ok v) →
      (applySettled env rs i (shops, errs)).1[i + k]? =
        (shops[i + k]?).map (fun s => { s with freeShip := v }) := by
  intro rs
  induction rs with
  | nil => intro k i shops errs v h; simp at h
  | cons r rest ih =>
    intro k i shops errs v h
    cases k with
    | zero =>
      simp only [List.getElem?_cons_zero, Option.some_inj] at h
      subst h
      show (applySettled env (.ok v :: rest) i (shops, errs)).1[i]? =
        (shops[i]?).map (fun s => { s with freeShip := v })
      rw [show applySettled env (.ok v :: rest) i (shops, errs) =
          applySettled env rest (i + 1)
            (listModify shops i (fun s => { s with freeShip := v }), errs) from rfl]
      rw [applySettled_getElem_lt env rest (i + 1) i _ _ (by omega)]
      exact listModify_getElem?_eq shops i _
    | succ k =>
      simp only [List.getElem?_cons_succ] at h
      have harith : i + (k + 1) = (i + 1) + k := by omega
      rcases r with reason | v'
      · rw [show applySettled env (.error reason :: rest) i (shops, errs) =
            applySettled env rest (i + 1)
              (listModify shops i
                (fun s => { s with freeShip :=
                  match setDefaultFreeShip shops i with
                  | .ok d => d
                  | .error _ => [] }), errs ++ [reason]) from rfl]
        rw [harith, ih k (i + 1) _ _ v h]
        rw [listModify_getElem?_ne shops i _ _ (by omega)]
      · rw [show applySettled env (.ok v' :: rest) i (shops, errs) =
            applySettled env rest (i + 1)
              (listModify shops i (fun s => { s with freeShip := v' }), errs) from rfl]
        rw [harith, ih k (i + 1) _ _ v h]
        rw [listModify_getElem?_ne shops i _ _ (by omega)]

theorem stageD_ids (env : Env) (shops : List Shop) (errs : List String) :
    (stageD env shops errs).shops.map (·.id) = shops.map (·.id) := by
  unfold stageD
  exact applySettled_ids env _ 0 _

theorem stageD_errs_mono (env : Env) (shops : List Shop) (errs : List String)
    (e : String) (h : e ∈ errs) : e ∈ (stageD env shops errs).errors := by
  unfold stageD
  exact applySettled_errs_mono env _ 0 _ e
    (settleAllGo_errs_mono env shops shops 0 errs e h)

theorem mapExcept_error_of_exists {α β : Type} (f : α → Except String β) :
    ∀ l : List α, (∃ x ∈ l, ∃ e, f x = .error e) →
      ∃ e', mapExcept f l = .error e' := by
  intro l
  induction l with
  | nil => intro h; simp at h
  | cons a rest ih =>
    intro h
    rcases h with ⟨x, hx, e, he⟩
    rcases List.mem_cons.mp hx with rfl | hmem
    · rcases h' : f x with e0 | b
      · exact ⟨e0, by simp [mapExcept, h']⟩
      · rw [h'] at he; cases he
    · rcases h' : f a with e0 | b
      · exact ⟨e0, by simp [mapExcept, h']⟩
      · rcases ih ⟨x, hmem, e, he⟩ with ⟨e', he'⟩
        exact ⟨e', by simp [mapExcept, h', he']⟩

theorem mapExcept_ok_of_forall {α β : Type} (f : α → Except String β) :
    ∀ l : List α, (∀ x ∈ l, ∃ b, f x = .ok b) →
      ∃ bs, mapExcept f l = .ok bs := by
  intro l
  induction l with
  | nil => intro _; exact ⟨[], rfl⟩
  | cons a rest ih =>
    intro h
    rcases h a (List.mem_cons_self _ _) with ⟨b, hb⟩
    rcases ih (fun x hx => h x (List.mem_cons_of_mem _ hx)) with ⟨bs, hbs⟩
    exact ⟨b :: bs, by simp [mapExcept, hb, hbs]⟩

theorem mapExcept_forall₂ {α β : Type} (f : α → Except String β) :
    ∀ (l : List α) (bs : List β), mapExcept f l = .ok bs →
      List.Forall₂ (fun a b => f a = .ok b) l bs := by
  intro l
  induction l with
  | nil =>
    intro bs h
    simp only [mapExcept, Except.ok.injEq] at h
    subst h
    exact List.Forall₂.nil
  | cons a rest ih =>
    intro bs h
    rcases h' : f a with e | b
    · rw [mapExcept, h'] at h; cases h
    · rw [mapExcept, h'] at h
      rcases h2 : mapExcept f rest with e | bs'
      · rw [h2] at h; cases h
      · rw [h2] at h
        simp only [Except.ok.injEq] at h
        subst h
        exact List.Forall₂.cons h' (ih bs' h2)

theorem stageD_at_ok (env : Env) (shops : List Shop) (errs : List String)
    (idx : Nat) (shop : Shop) (v : List (String × Int))
    (hidx : shops[idx]? = some shop)
    (hval : (getShipInfo env shops shop idx []).1 = .ok v) :
    (stageD env shops errs).shops[idx]? = some { shop with freeShip := v } := by
  unfold stageD
  have hsettled : (settleAll env shops errs).1[idx]? = some (.ok v) := by
    unfold settleAll
    rw [settleAllGo_fst_getElem env shops shops 0 errs idx, hidx]
    simp only [Option.map_some']
    rw [show (0 : Nat) + idx = idx by omega, hval]
  have := applySettled_ok_at env (settleAll env shops errs).1 idx 0 shops
    (settleAll env shops errs).2 v (by simpa using hsettled)
  simp only [Nat.zero_add] at this
  rw [this, hidx]
  rfl

/-! ## Claim C6: the purchase-limit clamp -/

theorem resolveOne_ok_fields (env : Env) (x : ProductRequest)
    (b : ProductRequestExtended) (h : resolveOne env x = .ok b) :
    b.productName = x.productName ∧ b.count = x.count := by
  simp only [resolveOne] at h
  rcases h1 : env.findCards (baseIdOf x.productName) (nowRarityOf x.productName)
    with e | cards
  · simp only [h1] at h
    exact absurd h (by simp)
  · simp only [h1] at h
    rcases h2 : cards.head? with _ | c
    · simp only [h2] at h
      exact absurd h (by simp)
    · simp only [h2, Except.ok.injEq] at h
      subst h
      exact ⟨rfl, rfl⟩

/-- C6: the constructor's clamp `count := Math.min(count, 3)` keeps the list's
length and order and each item's `productName`; a count above 3 becomes
exactly 3 and a count of at most 3 is unchanged; the items Stage A resolves
downstream carry exactly the clamped counts. -/
theorem count_clamp_spec (slist : List ProductRequest) :
    (clampShoppingList slist).length = slist.length
    ∧ (∀ (i : Nat) (x : ProductRequest), slist[i]? = some x →
        ∃ y : ProductRequest, (clampShoppingList slist)[i]? = some y ∧
          y.productName = x.productName ∧
          (3 < x.count → y.count = 3) ∧ (x.count ≤ 3 → y.count = x.count))
    ∧ (∀ (env : Env) (ext : List ProductRequestExtended),
        getProductRequestExtended env (clampShoppingList slist) = .ok ext →
        List.Forall₂
          (fun (x : ProductRequest) (y : ProductRequestExtended) =>
            y.productName = x.productName ∧ y.count = min x.count 3) slist ext) := by
  refine ⟨by simp [clampShoppingList], ?_, ?_⟩
  · intro i x hx
    refine ⟨{ x with count := min x.count 3 }, ?_, rfl, ?_, ?_⟩
    · simp [clampShoppingList, List.getElem?_map, hx]
    · intro h; simp only; omega
    · intro h; simp only; omega
  · intro env ext h
    have h2 := mapExcept_forall₂ (resolveOne env) (clampShoppingList slist) ext h
    unfold clampShoppingList at h2
    rw [List.forall₂_map_left_iff] at h2
    refine h2.imp ?_
    intro x y hxy
    rcases resolveOne_ok_fields env _ y hxy with ⟨hpn, hc⟩
    exact ⟨hpn, hc⟩

/-- Concrete check of C6: a requested count of 5 is processed as exactly 3. -/
theorem count_clamp_spec_witness :
    ((clampShoppingList [reqA])[0]?).map (·.count) = some 3 := by
  rcases (count_clamp_spec [reqA]).2.1 0 reqA (by decide) with ⟨y, hy, hpn, hgt, hle⟩
  rw [hy]
  simp [hgt (by decide)]

/-! ## Claim C9: shipping-price extraction -/

/-- C9 counterexample: in the declared mapping `{SEVEN: 60, SEVEN_COD: 80}`
both keys match recognized convenience-store codes, but their normalized keys
collide on `SEVEN`, so only the later fee survives: the matching entry
`(SEVEN, 60)` is not retained with its fee as the claim requires. -/
theorem extractShipPrices_counterexample :
    carrierMatch "SEVEN" = true ∧ carrierMatch "SEVEN_COD" = true ∧
    normalizeCarrier "SEVEN" = "SEVEN" ∧ normalizeCarrier "SEVEN_COD" = "SEVEN" ∧
    extractShipPrices [("SEVEN", 60), ("SEVEN_COD", 80)] = [("SEVEN", 80)] ∧
    ¬ objGet? (extractShipPrices [("SEVEN", 60), ("SEVEN_COD", 80)]) "SEVEN"
        = some 60 := by
  decide

theorem extract_foldl_lookup (k : String) :
    ∀ (d acc : List (String × Int)),
      objGet?
        (d.foldl
          (fun acc p =>
            if carrierMatch p.1 then objSet acc (normalizeCarrier p.1) p.2 else acc)
          acc) k =
      match d.reverse.find?
          (fun p => carrierMatch p.1 && (normalizeCarrier p.1 == k)) with
      | some q => some q.2
      | none => objGet? acc k := by
  intro d
  induction d with
  | nil => intro acc; simp
  | cons p rest ih =>
    intro acc
    simp only [List.foldl_cons, List.reverse_cons]
    rw [List.find?_append, ih]
    cases hfind : rest.reverse.find?
        (fun p => carrierMatch p.1 && (normalizeCarrier p.1 == k)) with
    | some q => simp
    | none =>
      by_cases hc : carrierMatch p.1 = true
      · by_cases hk : normalizeCarrier p.1 = k
        · have hpred : (carrierMatch p.1 && (normalizeCarrier p.1 == k)) = true := by
            simp [hc, hk]
          simp only [List.find?_singleton, hpred, if_true, Option.none_or]
          rw [if_pos hc, ← hk]
          exact objGet?_objSet_self acc (normalizeCarrier p.1) p.2
        · have hpred : (carrierMatch p.1 && (normalizeCarrier p.1 == k)) = false := by
            simp [hk]
          simp [List.find?_singleton, hpred]
          rw [if_pos hc]
          exact objGet?_objSet_ne acc (normalizeCarrier p.1) k p.2
            (fun hEq => hk hEq.symm)
      · have hpred : (carrierMatch p.1 && (normalizeCarrier p.1 == k)) = false := by
          simp [hc]
        simp [List.find?_singleton, hpred, hc]

/-- C9 (amended): looking up any carrier `k` in `extractShipPrices deliverWay`
yields exactly the fee of the last declared entry whose key matches one of the
recognized codes (`SEVEN`/`FAMI`/`HILIFE` as substrings) and normalizes
(`_COD` dropped, `FAMI` merged into `FAMILY`) to `k`; every key without such
an entry is absent.  On normalization collisions the later entry's fee
overrides the earlier one. -/
theorem extractShipPrices_lookup (d : List (String × Int)) (k : String) :
    objGet? (extractShipPrices d) k =
      (d.reverse.find?
        (fun p => carrierMatch p.1 && (normalizeCarrier p.1 == k))).map (·.2) := by
  unfold extractShipPrices
  rw [extract_foldl_lookup k d []]
  cases d.reverse.find? (fun p => carrierMatch p.1 && (normalizeCarrier p.1 == k)) with
  | some q => rfl
  | none => rfl

/-! ## Claims C7 and C4: the listing filter pipeline -/

theorem foldl_filter_all {α : Type} (p : String → α → Bool) (rars : List String) :
    ∀ l : List α,
      rars.foldl (fun acc rar => acc.filter (p rar)) l =
        l.filter (fun x => rars.all (fun rar => p rar x)) := by
  induction rars with
  | nil => intro l; simp
  | cons r rest ih =>
    intro l
    simp only [List.foldl_cons, List.all_cons]
    rw [ih (l.filter (p r)), List.filter_filter]
    apply List.filter_congr
    intro a _
    cases p r a <;> cases rest.all (fun rar => p rar a) <;> rfl

/-- The rarity-disambiguation stage as a predicate on one listing
(transparent when no extended entry was found, no rarity code was requested,
or the rarity set is empty — the guard of `filterProdDetail`). -/
def rarityPass (H : Heuristics) (ext : List ProductRequestExtended)
    (productName : String) (x : RawDetail) : Bool :=
  match (findExt ext productName).map (·.rarities), nowRarityOf productName with
  | some rs, some nr =>
    if nr ≠ "" ∧ 0 < rs.length then
      (rs.filter (fun y => y ≠ nr)).all
        (fun rar => H.notContainsAnotherRarity x.name rar rs.length)
    else true
  | some _, none => true
  | none, _ => true

/-- The pipeline of C7 as one predicate, staged in the claim's order: keyword
containment, illegal-character exclusion, fan-made exclusion, unopened-pack
exclusion, rarity disambiguation. -/
def pipelinePred (H : Heuristics) (ext : List ProductRequestExtended)
    (productName : String) (x : RawDetail) : Bool :=
  (((H.containsAllKeywords x.name productName &&
    H.isIllegalProductChar x.name) &&
    H.isFanMode x.name) &&
    H.isUnopenedPackProduct x.name) &&
    rarityPass H ext productName x

theorem baseFilter_eq (H : Heuristics) (productName : String)
    (data : List RawDetail) :
    baseFilter H productName data =
      data.filter (fun x =>
        ((H.containsAllKeywords x.name productName &&
          H.isIllegalProductChar x.name) &&
          H.isFanMode x.name) &&
          H.isUnopenedPackProduct x.name) := by
  unfold baseFilter
  rw [List.filter_filter, List.filter_filter, List.filter_filter]
  apply List.filter_congr
  intro a _
  cases H.containsAllKeywords a.name productName <;>
    cases H.isIllegalProductChar a.name <;>
    cases H.isFanMode a.name <;>
    cases H.isUnopenedPackProduct a.name <;> rfl

theorem filterProdDetail_eq_pipeline (H : Heuristics)
    (ext : List ProductRequestExtended) (data : List RawDetail)
    (productName : String) :
    filterProdDetail H ext data productName =
      ((data.filter (pipelinePred H ext productName)).map projDetail).take 10 := by
  unfold filterProdDetail
  cases hr : (findExt ext productName).map (·.rarities) with
  | none =>
    simp only [hr]
    rw [baseFilter_eq]
    congr 1
    apply congrArg
    apply List.filter_congr
    intro a _
    simp only [pipelinePred, rarityPass, hr]
    cases nowRarityOf productName <;>
      cases (((H.containsAllKeywords a.name productName &&
        H.isIllegalProductChar a.name) &&
        H.isFanMode a.name) &&
        H.isUnopenedPackProduct a.name) <;> rfl
  | some rs =>
    cases hnr : nowRarityOf productName with
    | none =>
      simp only [hr, hnr]
      rw [baseFilter_eq]
      congr 1
      apply congrArg
      apply List.filter_congr
      intro a _
      simp only [pipelinePred, rarityPass, hr, hnr]
      cases (((H.containsAllKeywords a.name productName &&
        H.isIllegalProductChar a.name) &&
        H.isFanMode a.name) &&
        H.isUnopenedPackProduct a.name) <;> rfl
    | some nr =>
      simp only [hr, hnr]
      by_cases hcond : nr ≠ "" ∧ 0 < rs.length
      · rw [if_pos hcond]
        unfold rarityStage
        rw [foldl_filter_all, baseFilter_eq, List.filter_filter]
        congr 1
        apply congrArg
        apply List.filter_congr
        intro a _
        simp only [pipelinePred, rarityPass, hr, hnr, if_pos hcond]
        cases (rs.filter (fun y => y ≠ nr)).all
            (fun rar => H.notContainsAnotherRarity a.name rar rs.length) <;>
          cases (((H.containsAllKeywords a.name productName &&
            H.isIllegalProductChar a.name) &&
            H.isFanMode a.name) &&
            H.isUnopenedPackProduct a.name) <;> rfl
      · rw [if_neg hcond]
        rw [baseFilter_eq]
        congr 1
        apply congrArg
        apply List.filter_congr
        intro a _
        simp only [pipelinePred, rarityPass, hr, hnr, if_neg hcond]
        cases (((H.containsAllKeywords a.name productName &&
          H.isIllegalProductChar a.name) &&
          H.isFanMode a.name) &&
          H.isUnopenedPackProduct a.name) <;> rfl

/-- C7: `filterProdDetail` returns the first 10 survivors, in input order, of
the five-stage pipeline (keyword containment, illegal-character exclusion,
fan-made exclusion, unopened-pack exclusion, then rarity disambiguation), each
stage operating on the survivors of the previous one — equivalently, of the
single conjoined predicate — and never more than 10 listings. -/
theorem filterProdDetail_pipeline (H : Heuristics)
    (ext : List ProductRequestExtended) (data : List RawDetail)
    (productName : String) :
    filterProdDetail H ext data productName =
      ((data.filter (pipelinePred H ext productName)).map projDetail).take 10
    ∧ (filterProdDetail H ext data productName).length ≤ 10 := by
  have h1 := filterProdDetail_eq_pipeline H ext data productName
  refine ⟨h1, ?_⟩
  rw [h1, List.length_take]
  exact min_le_left _ _

theorem mem_rarityStage (H : Heuristics) (rs : List String) (nr : String)
    (l : List RawDetail) (x : RawDetail) :
    x ∈ rarityStage H rs nr l ↔
      x ∈ l ∧ ∀ rar ∈ rs, rar ≠ nr →
        H.notContainsAnotherRarity x.name rar rs.length = true := by
  unfold rarityStage
  rw [foldl_filter_all, List.mem_filter, List.all_eq_true]
  constructor
  · rintro ⟨hx, hall⟩
    refine ⟨hx, fun rar hrar hner => ?_⟩
    exact hall rar (List.mem_filter.mpr ⟨hrar, by simp [hner]⟩)
  · rintro ⟨hx, hall⟩
    refine ⟨hx, fun rar hrar => ?_⟩
    rcases List.mem_filter.mp hrar with ⟨hmem, hner⟩
    exact hall rar hmem (by simpa using hner)

/-- C4: when the product has more than one known rarity and a specific
non-empty rarity code was requested, the filter's rarity stage excludes every
survivor of the earlier stages whose title textually indicates (fails
`notContainsAnotherRarity` for) one of the *other* known rarities; survivors
indicating none of the other rarities are not excluded by this stage; and
`filterProdDetail` is exactly that stage applied to the earlier survivors,
projected and truncated. -/
theorem rarity_disambiguation (H : Heuristics) (ext : List ProductRequestExtended)
    (data : List RawDetail) (productName : String) (rs : List String) (nr : String)
    (hfind : (findExt ext productName).map (·.rarities) = some rs)
    (hlen : 1 < rs.length)
    (hnr : nowRarityOf productName = some nr)
    (hne : nr ≠ "") :
    (∀ x ∈ baseFilter H productName data,
      (∃ rar ∈ rs, rar ≠ nr ∧
        H.notContainsAnotherRarity x.name rar rs.length = false) →
      ¬ x ∈ rarityStage H rs nr (baseFilter H productName data))
    ∧ (∀ x ∈ baseFilter H productName data,
      (∀ rar ∈ rs, rar ≠ nr →
        H.notContainsAnotherRarity x.name rar rs.length = true) →
      x ∈ rarityStage H rs nr (baseFilter H productName data))
    ∧ filterProdDetail H ext data productName =
        ((rarityStage H rs nr (baseFilter H productName data)).map projDetail).take 10 := by
  refine ⟨?_, ?_, ?_⟩
  · intro x hx hex hmem
    rcases hex with ⟨rar, hrar, hner, hfalse⟩
    rcases (mem_rarityStage H rs nr _ x).mp hmem with ⟨_, hall⟩
    have h2 := hall rar hrar hner
    rw [hfalse] at h2
    cases h2
  · intro x hx hall
    exact (mem_rarityStage H rs nr _ x).mpr ⟨hx, hall⟩
  · unfold filterProdDetail
    simp only [hfind, hnr]
    rw [if_pos ⟨hne, by omega⟩]

/-- The extended list for the C4 witness scenario: one product with the two
overlapping rarities `UR` and `SR`, `UR` requested. -/
def extW4 : List ProductRequestExtended :=
  [⟨"123+UR", 1, ["UR", "SR"], "123", "Card", "001"⟩]

/-- Heuristics for the C4 witness: a title indicates a rarity exactly when it
contains it as a substring. -/
def hcRarity : Heuristics :=
  ⟨fun _ _ => true, fun _ => true, fun _ => true, fun _ => true,
    fun name rar _ => !(strContains name rar)⟩

/-- A listing titled with the other rarity `SR`. -/
def dSR : RawDetail := ⟨"x1", "Card 001 SR", 50, 1, "shopZ", []⟩

/-- Concrete check of C4: with known rarities UR/SR and UR requested, a
listing whose title carries `SR` is excluded by the rarity stage. -/
theorem rarity_disambiguation_witness :
    ¬ dSR ∈ rarityStage hcRarity ["UR", "SR"] "UR"
        (baseFilter hcRarity "123+UR" [dSR]) := by
  have h := (rarity_disambiguation hcRarity extW4 [dSR] "123+UR" ["UR", "SR"] "UR"
    (by decide) (by decide) (by decide) (by decide)).1
  exact h dSR (by decide) ⟨"SR", by decide, by decide, by decide⟩

/-! ## Claims C3 and C10: Stage D shipping fallback and totality -/

/-- The shop discovered in the `envW` world, as it stands entering Stage D. -/
def shopW : Shop := ⟨"shopA", [("111+UR", ⟨"d1", 100, 2⟩)], [("SEVEN", 60)], []⟩

/-- C3: a shop whose shipping fetch fails, or whose fetched discount
conditions contain no recognized convenience-store entry, ends Stage D with
`freeShip` equal to exactly one synthesized entry, keyed by the first key of
its `shipPrices` mapping, with the sentinel threshold 99999. -/
theorem ship_fallback (env : Env) (shops : List Shop) (errs : List String)
    (idx : Nat) (shop : Shop) (k : String) (ks : List String)
    (hidx : shops[idx]? = some shop)
    (hkeys : objKeys shop.shipPrices = k :: ks)
    (hfail : (∃ e, env.shipInfo shop.id = .error e) ∨
             (∃ conds, env.shipInfo shop.id = .ok conds ∧ extractFreeShip conds = [])) :
    (stageD env shops errs).shops[idx]? =
      some { shop with freeShip := [(k, 99999)] } := by
  have hdef : setDefaultFreeShip shops idx = .ok [(k, 99999)] := by
    rw [setDefaultFreeShip_at shops idx shop hidx, hkeys]
    rfl
  have hval : (getShipInfo env shops shop idx []).1 = .ok [(k, 99999)] := by
    rcases hfail with ⟨e, he⟩ | ⟨conds, hc, hext⟩
    · have htry : getShipInfoTry env shops shop idx = .error e := by
        unfold getShipInfoTry
        rw [he]
      simp [getShipInfo, htry, hdef]
    · have htry : getShipInfoTry env shops shop idx = .ok [(k, 99999)] := by
        simp only [getShipInfoTry, hc, hext, List.isEmpty_nil, if_true]
        exact hdef
      simp [getShipInfo, htry]
  exact stageD_at_ok env shops errs idx shop [(k, 99999)] hidx hval

/-- Concrete check of C3: with the shipping endpoint failing, `shopA` (first
carrier `SEVEN`) ends Stage D with exactly `{SEVEN: 99999}`. -/
theorem ship_fallback_witness :
    (stageD envW [shopW] []).shops[0]? =
      some { shopW with freeShip := [("SEVEN", 99999)] } :=
  ship_fallback envW [shopW] [] 0 shopW "SEVEN" [] (by decide) (by decide)
    (Or.inl ⟨"network", by decide⟩)

/-- C10: for a valid index, `getShipInfo` always fulfills — any internal
failure is caught, the descriptive string is appended to the error
accumulator, and the fallback mapping is returned; consequently every outcome
of the Stage D settle-all join is fulfilled, so the `rejected` branch of the
join in `getShopList` is unreachable. -/
theorem shipinfo_never_rejects (env : Env) (A : List Shop) (s : Shop) (idx : Nat)
    (errs : List String) :
    (idx < A.length →
      (∃ v, (getShipInfo env A s idx errs).1 = .ok v) ∧
      ((∃ e, getShipInfoTry env A s idx = .error e) →
        (getShipInfo env A s idx errs).1 = setDefaultFreeShip A idx ∧
        (getShipInfo env A s idx errs).2 =
          errs ++ ["Error while getting ships info for " ++ s.id]))
    ∧ (∀ r ∈ (settleAll env A errs).1, ∃ v, r = .ok v) := by
  constructor
  · intro hlt
    constructor
    · exact getShipInfo_fst_ok env A s idx errs hlt
    · rintro ⟨e, he⟩
      have ha : A[idx]? = some A[idx] := List.getElem?_eq_getElem hlt
      have hdef := setDefaultFreeShip_at A idx A[idx] ha
      constructor
      · simp [getShipInfo, he, hdef]
      · simp [getShipInfo, he, hdef]
  · intro r hr
    exact settleAllGo_all_ok env A A 0 errs (by omega) r hr

/-- Concrete check of C10: a failing shipping fetch still fulfills with the
fallback and appends the descriptive string. -/
theorem shipinfo_never_rejects_witness :
    (getShipInfo envW [shopW] shopW 0 []).1 = setDefaultFreeShip [shopW] 0 ∧
    (getShipInfo envW [shopW] shopW 0 []).2 =
      ["Error while getting ships info for " ++ shopW.id] := by
  have h := (shipinfo_never_rejects envW [shopW] shopW 0 []).1 (by decide)
  have h2 := h.2 ⟨"network", by decide⟩
  exact ⟨h2.1, by simpa using h2.2⟩

/-! ## Claim C5: at most one shop entry per id -/

/-- C5: the shop list holds at most one entry per shop id throughout a run.
The full run's final list has pairwise-distinct ids; the Stage B merge step
preserves distinctness, appending an id only when absent; `addOrUpdateShop`
returns exactly `findIndex` of the detail's shop id — `none` (the `-1` case,
in which alone the caller pushes) iff the id is not yet present — and the
shop it returns carries that id. -/
theorem shop_id_unique (H : Heuristics) (env : Env) (slist : List ProductRequest) :
    ((getShopList H env slist).shops.map (·.id)).Nodup
    ∧ (∀ (shops : List Shop) (prod : ProductRequestExtended) (d : ProdDetail),
        (((shops.map (·.id)).Nodup) →
          ((stepDetail prod shops d).map (·.id)).Nodup)
        ∧ (stepDetail prod shops d).map (·.id) =
            (if d.shopId ∈ shops.map (·.id) then shops.map (·.id)
             else shops.map (·.id) ++ [d.shopId])
        ∧ (addOrUpdateShop shops prod d).1 = findShopIdx shops d.shopId
        ∧ (findShopIdx shops d.shopId = none ↔ ¬ d.shopId ∈ shops.map (·.id))
        ∧ (addOrUpdateShop shops prod d).2.id = d.shopId) := by
  constructor
  · cases hA : getProductRequestExtended env (clampShoppingList slist) with
    | error e => simp [getShopList, hA]
    | ok ext =>
      have hB : (((stageB H env ext).1).map (·.id)).Nodup := by
        unfold stageB
        exact stageB_foldl_nodup H env ext ext ([], []) (by simp)
      simp only [getShopList, hA]
      rw [stageD_ids, stageC_ids]
      exact hB
  · intro shops prod d
    refine ⟨fun h => stepDetail_nodup prod shops d h, stepDetail_ids prod shops d,
      ?_, findShopIdx_none_iff shops d.shopId, ?_⟩
    · cases hf : findShopIdx shops d.shopId <;> simp [addOrUpdateShop, hf]
    · cases hf : findShopIdx shops d.shopId with
      | none => simp [addOrUpdateShop, hf]
      | some i =>
        have hid := findShopIdx_some shops d.shopId i hf
        rcases Option.map_eq_some'.mp hid with ⟨a, ha, hae⟩
        simp [addOrUpdateShop, hf, ha, hae]

/-- The extended item and listing detail of the `envW` world, for witnesses. -/
def prodW : ProductRequestExtended := ⟨"111+UR", 3, ["UR", "SR"], "111", "CardX", "001"⟩

/-- The projected detail the `envW` world produces for `111+UR`. -/
def dW : ProdDetail := ⟨100, 2, "d1", "shopA", [("SEVEN", 60)]⟩

/-- Concrete check of C5: the run's final ids are distinct, and a merge step
on a distinct-id list keeps them distinct. -/
theorem shop_id_unique_witness :
    ((getShopList allTrue envW [reqA]).shops.map (·.id)).Nodup ∧
    ((stepDetail prodW [shopW] dW).map (·.id)).Nodup := by
  refine ⟨(shop_id_unique allTrue envW [reqA]).1, ?_⟩
  exact ((shop_id_unique allTrue envW [reqA]).2 [shopW] prodW dW).1 (by decide)

/-! ## Claim C2: Stage B partial failure -/

/-- C2: once Stage A has resolved the list, a failed offer discovery for one
item lands in the accumulated error sequence of the whole run, and every shop
discovered through any successfully fetched item is still present (by id) in
the final shop list. -/
theorem partial_failure (H : Heuristics) (env : Env) (slist : List ProductRequest)
    (ext : List ProductRequestExtended)
    (hA : getProductRequestExtended env (clampShoppingList slist) = .ok ext) :
    (∀ prod ∈ ext, ∀ e, findProductList H env ext prod = .error e →
        e ∈ (getShopList H env slist).errors)
    ∧ (∀ prod ∈ ext, ∀ ds, findProductList H env ext prod = .ok ds →
        ∀ d ∈ ds, d.shopId ∈ (getShopList H env slist).shops.map (·.id)) := by
  have hrun : getShopList H env slist =
      stageD env
        (findShopHasAnotherProduct env (clampShoppingList slist)
          (stageB H env ext).1 (stageB H env ext).2).1
        (findShopHasAnotherProduct env (clampShoppingList slist)
          (stageB H env ext).1 (stageB H env ext).2).2 := by
    simp only [getShopList, hA]
  constructor
  · intro prod hmem e he
    rw [hrun]
    apply stageD_errs_mono
    apply stageC_errs_mono
    unfold stageB
    exact stageB_foldl_err_mem H env ext prod e he ext ([], []) hmem
  · intro prod hmem ds hds d hd
    rw [hrun, stageD_ids, stageC_ids]
    unfold stageB
    exact stageB_foldl_shop_mem H env ext prod ds d hds hd ext ([], []) hmem

/-- The C2 witness world: both items resolve, but the remote search fails for
`222+SR` while `111+UR` finds a listing at `shopA`. -/
def envW2 : Env where
  findCards id _ :=
    if id = "111" then .ok [cardX]
    else if id = "222" then .ok [⟨"CardY", "002", ["SR"]⟩]
    else .ok []
  prodList q := if q = "111+UR" then .ok [⟨"L1"⟩] else .error "network"
  prodDetailList ids :=
    if ids = "L1" then .ok [⟨"d1", "CardX 001 UR", 100, 2, "shopA", [("SEVEN", 60)]⟩]
    else .error "network"
  shopInfo _ := .error "network"
  shopProdList _ _ := .error "network"
  shipInfo _ := .error "network"

/-- The resolved list of the C2 witness world. -/
def extW2 : List ProductRequestExtended :=
  [⟨"111+UR", 3, ["UR", "SR"], "111", "CardX", "001"⟩,
    ⟨"222+SR", 1, ["SR"], "222", "CardY", "002"⟩]

/-- Concrete check of C2: the failing item's error is accumulated and the shop
found through the other item is still in the final result. -/
theorem partial_failure_witness :
    "Error while getting product list for 222+SR" ∈
      (getShopList allTrue envW2 [reqA, reqB]).errors ∧
    "shopA" ∈ (getShopList allTrue envW2 [reqA, reqB]).shops.map (·.id) := by
  have h := partial_failure allTrue envW2 [reqA, reqB] extW2 (by decide)
  constructor
  · exact h.1 ⟨"222+SR", 1, ["SR"], "222", "CardY", "002"⟩ (by decide)
      "Error while getting product list for 222+SR" (by decide)
  · exact h.2 ⟨"111+UR", 3, ["UR", "SR"], "111", "CardX", "001"⟩ (by decide)
      [⟨100, 2, "d1", "shopA", [("SEVEN", 60)]⟩] (by decide)
      ⟨100, 2, "d1", "shopA", [("SEVEN", 60)]⟩ (by decide)

/-! ## Claim C1: Stage A is all-or-nothing, not per-item -/

/-- C1 counterexample: with two requested items, the first resolves (and on
its own yields a non-empty shop list) while the second does not — yet the
two-item run returns the empty shop list.  So a run can return an empty list
although Stage A succeeded for at least one item, and the resolvable item is
not covered. -/
theorem stageA_abort_counterexample :
    (∃ b, resolveOne envW ⟨"111+UR", 3⟩ = .ok b) ∧
    (getShopList allTrue envW [reqA]).shops ≠ [] ∧
    (getShopList allTrue envW [reqA, reqB]).shops = [] :=
  ⟨⟨⟨"111+UR", 3, ["UR", "SR"], "111", "CardX", "001"⟩, by decide⟩,
    by decide, by decide⟩

/-- C1 (amended): the run returns the empty shop list from the Stage A catch
iff metadata resolution fails for *some* requested item — the stage aborts at
the first failure, discarding even successfully resolvable items; only when
every item resolves does the run proceed through Stages B–D to the best-effort
shop list. -/
theorem stageA_all_or_nothing (H : Heuristics) (env : Env)
    (slist : List ProductRequest) :
    ((∃ x ∈ clampShoppingList slist, ∃ e, resolveOne env x = .error e) →
      ∃ e', getProductRequestExtended env (clampShoppingList slist) = .error e' ∧
        getShopList H env slist = ⟨[], [e']⟩)
    ∧ ((∀ x ∈ clampShoppingList slist, ∃ b, resolveOne env x = .ok b) →
      ∃ ext, getProductRequestExtended env (clampShoppingList slist) = .ok ext ∧
        getShopList H env slist =
          stageD env
            (findShopHasAnotherProduct env (clampShoppingList slist)
              (stageB H env ext).1 (stageB H env ext).2).1
            (findShopHasAnotherProduct env (clampShoppingList slist)
              (stageB H env ext).1 (stageB H env ext).2).2) := by
  constructor
  · intro hex
    rcases mapExcept_error_of_exists (resolveOne env) _ hex with ⟨e', he'⟩
    refine ⟨e', he', ?_⟩
    simp only [getShopList, getProductRequestExtended, he']
  · intro hall
    rcases mapExcept_ok_of_forall (resolveOne env) _ hall with ⟨ext, hext⟩
    refine ⟨ext, hext, ?_⟩
    simp only [getShopList, getProductRequestExtended, hext]

/-- Concrete check of C1 (amended): the two-item world with one unresolvable
item returns the empty list through the Stage A catch. -/
theorem stageA_all_or_nothing_witness :
    (getShopList allTrue envW [reqA, reqB]).shops = [] := by
  rcases (stageA_all_or_nothing allTrue envW [reqA, reqB]).1
    ⟨⟨"222+SR", 1⟩, by decide, "Card data not found for 222 SR", by decide⟩
    with ⟨e', he', hrun⟩
  rw [hrun]

/-! ## Claim C8: the cross-sell probe keeps shops and accumulates failures -/

/-- C8: on a Stage C input with distinct shop ids, the probe preserves the
list's ids position by position; every shop keeps its `shipPrices` and all the
product bindings it already had; a failed canonical-seller-id resolution puts
its error in the accumulator; and a failed cross-sell fetch for one missing
product puts its error in the accumulator (only that addition is skipped, the
shop entry itself surviving by the preservation above). -/
theorem cross_sell_containment (env : Env) (slist : List ProductRequest)
    (shops : List Shop) (errs : List String)
    (hnd : (shops.map (·.id)).Nodup) :
    ((findShopHasAnotherProduct env slist shops errs).1.map (·.id) =
      shops.map (·.id))
    ∧ (∀ (i : Nat) (shop₀ : Shop), shops[i]? = some shop₀ →
        ∃ shop', (findShopHasAnotherProduct env slist shops errs).1[i]? = some shop' ∧
          shop'.id = shop₀.id ∧ shop'.shipPrices = shop₀.shipPrices ∧
          ∀ k, k ∈ objKeys shop₀.products →
            objGet? shop'.products k = objGet? shop₀.products k)
    ∧ (∀ (i : Nat) (shop₀ : Shop), shops[i]? = some shop₀ →
        ∀ e, getShopId env shop₀.id = .error e →
          e ∈ (findShopHasAnotherProduct env slist shops errs).2)
    ∧ (∀ (i : Nat) (shop₀ : Shop) (sid : String), shops[i]? = some shop₀ →
        getShopId env shop₀.id = .ok sid →
        ∀ p ∈ targetProductsOf slist shops shop₀.id,
        ∀ e, getShopOtherProductInfo env sid p = .error e →
          e ∈ (findShopHasAnotherProduct env slist shops errs).2) := by
  have henum : ∀ (i : Nat) (shop₀ : Shop), shops[i]? = some shop₀ →
      (i, shop₀.id) ∈ enumFromN 0 (shops.map (·.id)) := by
    intro i shop₀ hi
    have hmap : (shops.map (·.id))[i]? = some shop₀.id := by
      rw [List.getElem?_map, hi]
      rfl
    have h2 := enumFromN_mem_of_getElem? (shops.map (·.id)) 0 i shop₀.id hmap
    simpa using h2
  refine ⟨stageC_ids env slist shops errs, ?_, ?_, ?_⟩
  · exact fun i shop₀ h => stageC_keeps env slist shops errs hnd i shop₀ h
  · intro i shop₀ hi e he
    unfold findShopHasAnotherProduct
    exact stageC_foldl_err_contrib env slist shops e (i, shop₀.id)
      (fun acc' => crossSellOne_err_self env slist shops acc' (i, shop₀.id) e he)
      _ _ (henum i shop₀ hi)
  · intro i shop₀ sid hi hsid p hp e he
    unfold findShopHasAnotherProduct
    exact stageC_foldl_err_contrib env slist shops e (i, shop₀.id)
      (fun acc' => crossSellOne_prod_err env slist shops acc' (i, shop₀.id)
        sid hsid p hp e he)
      _ _ (henum i shop₀ hi)

/-- Concrete check of C8: with the store-info endpoint failing, the shop's
entry survives Stage C and the descriptive error is accumulated. -/
theorem cross_sell_containment_witness :
    "Error while getting product list for shopA" ∈
      (findShopHasAnotherProduct envW [reqA] [shopW] []).2 ∧
    (findShopHasAnotherProduct envW [reqA] [shopW] []).1.map (·.id) = ["shopA"] := by
  have h := cross_sell_containment envW [reqA] [shopW] [] (by decide)
  refine ⟨?_, ?_⟩
  · exact h.2.2.1 0 shopW (by decide)
      "Error while getting product list for shopA" (by decide)
  · rw [h.1]
    rfl

end Ruten
